import Mathlib

/-!
Shallow embedding of crates/xaoc_utils/src/label.rs.

Strings are modelled as lists of bytes (the UTF-8 bytes of a Rust str);
the 64-bit hash is a Nat kept below 2 ^ 64 by explicit reduction mod 2 ^ 64.
TypeId of the Domain parameter is modelled as a Nat.

A central point of the embedding: in the source, the registry is declared

  const HASHES: once_cell::sync::Lazy<Mutex<HashMap<(TypeId, u64), &'static str>>> = ...

with `const`, not `static`.  A Rust `const` item is inlined at every use
site, so `let hashes = &*HASHES;` in `intern` materialises a fresh,
newly-initialised `Lazy` (hence a fresh empty map) on every call: the
lookup and insert act on a temporary map that is dropped when the call
returns, and no state persists between intern calls.  The embedding keeps
both levels separate: `internBody` is the body of the entry match
(lines 20-23 of label.rs) over an explicit map, and `intern` is the whole
function as written, which runs that body on a fresh empty map and leaves
the process-global map untouched.
-/

abbrev Byte := Fin 256

/-- Bytes of a Rust str (its UTF-8 encoding). -/
abbrev Str := List Byte

/-- Hash of const_fnv1a_hash::fnv1a_hash_str_64, an external crate dependency
(not under src/), modelled from its documented algorithm: 64-bit FNV-1a over
the UTF-8 bytes, offset basis 0xcbf29ce484222325, prime 0x100000001b3,
arithmetic wrapping mod 2 ^ 64. -/
def fnv1a_hash_str_64 (s : Str) : Nat :=
  s.foldl (fun h b => (h ^^^ b.val) * 0x100000001b3 % 2 ^ 64) 0xcbf29ce484222325

/-- Reference FNV-1a 64 written as an explicit accumulator recursion, following
the claimed algorithm byte by byte: XOR the byte into the accumulator, multiply
by the prime, reduce mod 2 ^ 64. -/
def fnv1a_loop (h : Nat) : Str → Nat
  | [] => h
  | b :: bs => fnv1a_loop ((h ^^^ b.val) * 0x100000001b3 % 2 ^ 64) bs

/-- Registry key: (TypeId of the Domain parameter, 64-bit hash). -/
abbrev RegKey := Nat × Nat

/-- The registry map (namespace identity, hash) -> name, as an association list. -/
abbrev RegMap := List (RegKey × Str)

/-- Arguments of the panic in hashes_table::intern:
"Duplicate hash value {:08x} for strings {:?} and {:?}" formatted with
(id, name, o.get()), i.e. the hash, the incoming name, the stored name. -/
structure PanicInfo where
  id : Nat
  name : Str
  stored : Str
deriving DecidableEq

/-- Lookup in the association-list registry. -/
def regFind (m : RegMap) (k : RegKey) : Option Str :=
  match m with
  | [] => none
  | (k2, v) :: rest => if k2 = k then some v else regFind rest k

/-- Body of hashes_table::intern (label.rs lines 20-23): the match on the
entry for (type_id, id).  Occupied with a different name panics with
(id, name, stored); occupied with the same name returns the stored name;
vacant inserts and returns name. -/
def internBody (m : RegMap) (type_id : Nat) (id : Nat) (name : Str) :
    Except PanicInfo (Str × RegMap) :=
  match regFind m (type_id, id) with
  | some stored =>
      if stored ≠ name then .error ⟨id, name, stored⟩ else .ok (stored, m)
  | none => .ok (name, ((type_id, id), name) :: m)

/-- hashes_table::intern as written.  `g` is the process-global registry
state; because HASHES is a `const` item, each call inlines a fresh Lazy and
the entry logic runs on a newly created empty map: the global state is
neither read nor written, and the temporary map is dropped on return. -/
def intern (g : RegMap) (type_id : Nat) (id : Nat) (name : Str) :
    Except PanicInfo (Str × RegMap) :=
  match internBody [] type_id id name with
  | .ok (n, _) => .ok (n, g)
  | .error e => .error e

/-- ConstLabel<Domain>: {id, name}; PhantomData carries no data. -/
structure ConstLabel where
  id : Nat
  name : Str
deriving DecidableEq

/-- ConstLabel::new: a const fn, so it can perform no effect; it computes the
FNV-1a hash of the name and stores the pair. -/
def ConstLabel.new (name : Str) : ConstLabel :=
  ⟨fnv1a_hash_str_64 name, name⟩

/-- Label<Domain>: {id, name}; PhantomData carries no data.  The namespace
tag appears as the type_id argument of the construction functions. -/
structure Label where
  id : Nat
  name : Str
deriving DecidableEq

/-- impl From<ConstLabel<Domain>> for Label<Domain>.  `check` is the
check_label_hashes cfg feature; when it is on, intern is called and its
result discarded; the fields are copied from the ConstLabel either way.
Returns the label, the process-global registry state, and the number of
intern calls performed. -/
def Label.fromConst (check : Bool) (g : RegMap) (type_id : Nat) (c : ConstLabel) :
    Except PanicInfo (Label × RegMap × Nat) :=
  if check then
    match intern g type_id c.id c.name with
    | .ok (_, g2) => .ok (⟨c.id, c.name⟩, g2, 1)
    | .error e => .error e
  else .ok (⟨c.id, c.name⟩, g, 0)

/-- ConstLabel::label, which is self.into(). -/
def ConstLabel.label (check : Bool) (g : RegMap) (type_id : Nat) (c : ConstLabel) :
    Except PanicInfo (Label × RegMap × Nat) :=
  Label.fromConst check g type_id c

/-- Cow<'static, str> input of Label::new. -/
inductive CowStr where
  | borrowed (s : Str)
  | owned (s : Str)
deriving DecidableEq

/-- Cow::as_ref: the content, whichever variant holds it. -/
def CowStr.asRef : CowStr → Str
  | .borrowed s => s
  | .owned s => s

/-- Label::new.  The hash is computed from name.as_ref(); in the Borrowed
branch, intern is called only under the check_label_hashes feature and its
result is discarded (the borrowed name itself is used); in the Owned branch,
intern is called unconditionally (no cfg guard in the source) on the leaked
string and its result becomes the label's name.  Returns the label, the
process-global registry state, and the number of intern calls performed. -/
def Label.new (check : Bool) (g : RegMap) (type_id : Nat) (name : CowStr) :
    Except PanicInfo (Label × RegMap × Nat) :=
  let id := fnv1a_hash_str_64 name.asRef
  match name with
  | .borrowed s =>
      if check then
        match intern g type_id id s with
        | .ok (_, g2) => .ok (⟨id, s⟩, g2, 1)
        | .error e => .error e
      else .ok (⟨id, s⟩, g, 0)
  | .owned s =>
      match intern g type_id id s with
      | .ok (n, g2) => .ok (⟨id, n⟩, g2, 1)
      | .error e => .error e

/-- impl Clone for Label: copies the two fields. -/
def Label.clone (l : Label) : Label :=
  ⟨l.id, l.name⟩

/-- impl PartialEq for Label: compares the id fields only. -/
def Label.beq (a b : Label) : Bool :=
  a.id == b.id

/-- Number of intern calls recorded by a construction result. -/
def internCalls (r : Except PanicInfo (Label × RegMap × Nat)) : Nat :=
  match r with
  | .ok (_, _, k) => k
  | .error _ => 0

/-!
Allocation-tracking variant, for the claims about canonical shared storage.
A name reference is (allocation id, content): Box::leak creates a fresh
allocation each time it runs, and &'static str equality in the source
compares content only.
-/

/-- A &'static str reference: (allocation id, content). -/
abbrev AllocStr := Nat × Str

/-- Registry map in the allocation-tracking model. -/
abbrev RegMapA := List (RegKey × AllocStr)

/-- Lookup in the allocation-tracking registry. -/
def regFindA (m : RegMapA) (k : RegKey) : Option AllocStr :=
  match m with
  | [] => none
  | (k2, v) :: rest => if k2 = k then some v else regFindA rest k

/-- Body of hashes_table::intern in the allocation-tracking model; the
&'static str comparison *o.get() != name compares content only. -/
def internBodyA (m : RegMapA) (type_id : Nat) (id : Nat) (name : AllocStr) :
    Except PanicInfo (AllocStr × RegMapA) :=
  match regFindA m (type_id, id) with
  | some stored =>
      if stored.2 ≠ name.2 then .error ⟨id, name.2, stored.2⟩ else .ok (stored, m)
  | none => .ok (name, ((type_id, id), name) :: m)

/-- hashes_table::intern as written, allocation-tracking model: the const
HASHES inlines a fresh empty map per call, the global map is untouched. -/
def internA (g : RegMapA) (type_id : Nat) (id : Nat) (name : AllocStr) :
    Except PanicInfo (AllocStr × RegMapA) :=
  match internBodyA [] type_id id name with
  | .ok (n, _) => .ok (n, g)
  | .error e => .error e

/-- Label::new on an owned string, allocation-tracking: `heap` is the next
fresh allocation id; Box::leak(name.into_boxed_str()) produces the fresh
allocation (heap, s), which is passed to intern; the label's name is the
reference intern returns.  Returns that reference, the global registry
state, and the next allocation id. -/
def labelNewOwnedA (g : RegMapA) (heap : Nat) (type_id : Nat) (s : Str) :
    Except PanicInfo (AllocStr × RegMapA × Nat) :=
  match internA g type_id (fnv1a_hash_str_64 s) (heap, s) with
  | .ok (n, g2) => .ok (n, g2, heap + 1)
  | .error e => .error e

/-- The same construction under the registry semantics the spec describes
(HASHES as a persistent `static`): the entry logic of internBodyA threaded
through the process-global map. -/
def labelNewOwnedStaticA (g : RegMapA) (heap : Nat) (type_id : Nat) (s : Str) :
    Except PanicInfo (AllocStr × RegMapA × Nat) :=
  match internBodyA g type_id (fnv1a_hash_str_64 s) (heap, s) with
  | .ok (n, g2) => .ok (n, g2, heap + 1)
  | .error e => .error e

/-! Helper lemmas. -/

/-- The foldl form of the hash agrees with the accumulator recursion. -/
lemma foldl_eq_loop : ∀ (s : Str) (h : Nat),
    s.foldl (fun h b => (h ^^^ b.val) * 0x100000001b3 % 2 ^ 64) h = fnv1a_loop h s
  | [], _ => rfl
  | _ :: bs, _ => foldl_eq_loop bs _

/-- The hash equals the reference byte-by-byte recursion started at the
offset basis. -/
lemma fnv_eq_loop (s : Str) :
    fnv1a_hash_str_64 s = fnv1a_loop 0xcbf29ce484222325 s :=
  foldl_eq_loop s 0xcbf29ce484222325

/-- The accumulator recursion stays below 2 ^ 64. -/
lemma fnv1a_loop_lt : ∀ (s : Str) (h : Nat), h < 2 ^ 64 → fnv1a_loop h s < 2 ^ 64
  | [], _, hh => hh
  | _ :: bs, _, _ => fnv1a_loop_lt bs _ (Nat.mod_lt _ (by norm_num))

/-- The hash is below 2 ^ 64. -/
lemma fnv_lt (s : Str) : fnv1a_hash_str_64 s < 2 ^ 64 := by
  rw [fnv_eq_loop]
  exact fnv1a_loop_lt s _ (by norm_num)

/-- With the check feature on, Label::new as written returns the label
(hash of content, content) and leaves the global registry unchanged. -/
lemma labelNew_check_ok (g : RegMap) (tid : Nat) (c : CowStr) :
    Label.new true g tid c = .ok (⟨fnv1a_hash_str_64 c.asRef, c.asRef⟩, g, 1) := by
  cases c <;> rfl

/-- Embedding of an ASCII byte (valid single-byte UTF-8) into Byte. -/
def byteOfAscii (b : Fin 128) : Byte :=
  ⟨b.val, Nat.lt_trans b.isLt (by norm_num)⟩

/-- byteOfAscii is injective. -/
lemma byteOfAscii_inj : Function.Injective byteOfAscii := by
  intro a b h
  exact Fin.val_injective (congrArg (@Fin.val 256) h)

/-- By pigeonhole, two distinct 10-byte ASCII strings share an FNV-1a hash:
there are 128 ^ 10 > 2 ^ 64 such strings and at most 2 ^ 64 hash values. -/
lemma fnv_collision :
    ∃ s1 s2 : Str, s1 ≠ s2 ∧ s1.length = 10 ∧ s2.length = 10 ∧
      (∀ b ∈ s1, b.val < 128) ∧ (∀ b ∈ s2, b.val < 128) ∧
      fnv1a_hash_str_64 s1 = fnv1a_hash_str_64 s2 := by
  have hcard : Fintype.card (Fin (2 ^ 64)) < Fintype.card (Fin 10 → Fin 128) := by
    rw [Fintype.card_fun, Fintype.card_fin, Fintype.card_fin, Fintype.card_fin]
    norm_num
  obtain ⟨v1, v2, hne, heq⟩ := Fintype.exists_ne_map_eq_of_card_lt
    (fun v : Fin 10 → Fin 128 =>
      (⟨fnv1a_hash_str_64 (List.ofFn fun i => byteOfAscii (v i)), fnv_lt _⟩ : Fin (2 ^ 64)))
    hcard
  refine ⟨List.ofFn fun i => byteOfAscii (v1 i), List.ofFn fun i => byteOfAscii (v2 i),
    ?_, by simp, by simp, ?_, ?_, congrArg Fin.val heq⟩
  · intro h
    exact hne (funext fun i => byteOfAscii_inj (congrFun (List.ofFn_injective h) i))
  · exact List.forall_mem_ofFn_iff.2 fun j => (v1 j).isLt
  · exact List.forall_mem_ofFn_iff.2 fun j => (v2 j).isLt

/-- C1: refuted on the code as written; the registry does not persist.
Because HASHES is a `const` item, each intern call consults a fresh empty
map rather than one shared registry: the first call's entry is gone when
the second call runs, so a second name is accepted for the same
(namespace, hash) pair.  The last conjunct shows that the entry-match body
run against a persistent map holding the first entry would instead abort,
which is what the claim (and the spec) describe. -/
theorem hashes_registry_not_persistent :
    intern [] 0 5 [97] = .ok ([97], []) ∧
    intern [] 0 5 [98] = .ok ([98], []) ∧
    internBody [] 0 5 [97] = .ok ([97], [((0, 5), [97])]) ∧
    internBody [((0, 5), [97])] 0 5 [98] = .error ⟨5, [98], [97]⟩ :=
  ⟨rfl, rfl, rfl, rfl⟩

/-- C2: refuted on the code as written.  There exist two distinct strings
with equal FNV-1a hashes (pigeonhole), and for any such pair, constructing
a label for the second string after the first returns normally instead of
panicking, because each intern call sees a fresh empty map (HASHES is
`const`).  The last conjunct shows the entry-match body against a
persistent registry holding the first entry would abort with the shared
hash and both strings, as the claim describes. -/
theorem collision_second_construction_returns :
    ∃ s1 s2 : Str, s1 ≠ s2 ∧ fnv1a_hash_str_64 s1 = fnv1a_hash_str_64 s2 ∧
      ∀ (g : RegMap) (tid : Nat),
        Label.new true g tid (.owned s1) = .ok (⟨fnv1a_hash_str_64 s1, s1⟩, g, 1) ∧
        Label.new true g tid (.owned s2) = .ok (⟨fnv1a_hash_str_64 s2, s2⟩, g, 1) ∧
        internBody [((tid, fnv1a_hash_str_64 s1), s1)] tid (fnv1a_hash_str_64 s1) s2 =
          .error ⟨fnv1a_hash_str_64 s1, s2, s1⟩ := by
  obtain ⟨s1, s2, hne, _, _, _, _, hh⟩ := fnv_collision
  refine ⟨s1, s2, hne, hh, fun g tid => ⟨rfl, rfl, ?_⟩⟩
  have hfind : regFind [((tid, fnv1a_hash_str_64 s1), s1)] (tid, fnv1a_hash_str_64 s1)
      = some s1 := by
    simp [regFind]
  have hne2 : s1 ≠ s2 := hne
  simp [internBody, hfind, hne2]

/-- C3: confirmed.  Label equality (impl PartialEq) holds iff the id fields
are equal, and labels built from strings with different hashes compare
unequal. -/
theorem label_eq_iff_id :
    (∀ l1 l2 : Label, Label.beq l1 l2 = true ↔ l1.id = l2.id) ∧
    ∀ (g1 g2 : RegMap) (tid : Nat) (s1 s2 : Str), s1 ≠ s2 →
      fnv1a_hash_str_64 s1 ≠ fnv1a_hash_str_64 s2 →
      ∃ l1 g1p l2 g2p,
        Label.new true g1 tid (.borrowed s1) = .ok (l1, g1p, 1) ∧
        Label.new true g2 tid (.borrowed s2) = .ok (l2, g2p, 1) ∧
        Label.beq l1 l2 = false := by
  constructor
  · intro l1 l2
    simp [Label.beq]
  · intro g1 g2 tid s1 s2 _ hh
    refine ⟨⟨fnv1a_hash_str_64 s1, s1⟩, g1, ⟨fnv1a_hash_str_64 s2, s2⟩, g2,
      labelNew_check_ok g1 tid (.borrowed s1), labelNew_check_ok g2 tid (.borrowed s2), ?_⟩
    simpa [Label.beq] using hh

/-- C3 witness: the strings "1" and "2" (bytes 49 and 50) have different
hashes and yield unequal labels. -/
theorem label_eq_iff_id_witness :
    ([49] : Str) ≠ [50] ∧ fnv1a_hash_str_64 [49] ≠ fnv1a_hash_str_64 [50] ∧
    ∃ l1 g1p l2 g2p,
      Label.new true [] 0 (.borrowed [49]) = .ok (l1, g1p, 1) ∧
      Label.new true [] 0 (.borrowed [50]) = .ok (l2, g2p, 1) ∧
      Label.beq l1 l2 = false :=
  ⟨by decide, by decide, label_eq_iff_id.2 [] [] 0 [49] [50] (by decide) (by decide)⟩

/-- C4: confirmed.  Constructing labels from content-equal inputs (borrowed
or owned) yields equal labels with equal ids and content-equal names, and
each label's id is the hash of its name's bytes. -/
theorem equal_content_labels_equal (g1 g2 : RegMap) (tid : Nat) (c1 c2 : CowStr)
    (h : c1.asRef = c2.asRef) :
    ∃ l1 g1p k1 l2 g2p k2,
      Label.new true g1 tid c1 = .ok (l1, g1p, k1) ∧
      Label.new true g2 tid c2 = .ok (l2, g2p, k2) ∧
      Label.beq l1 l2 = true ∧ l1.id = l2.id ∧ l1.name = l2.name ∧
      l1.id = fnv1a_hash_str_64 l1.name ∧ l2.id = fnv1a_hash_str_64 l2.name := by
  refine ⟨⟨fnv1a_hash_str_64 c1.asRef, c1.asRef⟩, g1, 1,
    ⟨fnv1a_hash_str_64 c2.asRef, c2.asRef⟩, g2, 1,
    labelNew_check_ok g1 tid c1, labelNew_check_ok g2 tid c2, ?_, ?_, ?_, rfl, rfl⟩
  · simp [Label.beq, h]
  · rw [h]
  · exact h

/-- C4 witness: a borrowed and an owned copy of the string "1" yield equal
labels. -/
theorem equal_content_labels_equal_witness :
    (CowStr.borrowed [49]).asRef = (CowStr.owned [49]).asRef ∧
    ∃ l1 g1p k1 l2 g2p k2,
      Label.new true [] 0 (.borrowed [49]) = .ok (l1, g1p, k1) ∧
      Label.new true [] 0 (.owned [49]) = .ok (l2, g2p, k2) ∧
      Label.beq l1 l2 = true ∧ l1.id = l2.id ∧ l1.name = l2.name ∧
      l1.id = fnv1a_hash_str_64 l1.name ∧ l2.id = fnv1a_hash_str_64 l2.name :=
  ⟨rfl, equal_content_labels_equal [] [] 0 (.borrowed [49]) (.owned [49]) rfl⟩

/-- C5: confirmed.  Building a ConstLabel and upgrading it via
ConstLabel::label (From<ConstLabel>) yields the same label as direct
construction with Label::new on the same string: equal by Label equality,
with equal id and identical name. -/
theorem const_upgrade_eq_direct (g1 g2 : RegMap) (tid : Nat) (s : Str) :
    ∃ l1 g1p l2 g2p,
      ConstLabel.label true g1 tid (ConstLabel.new s) = .ok (l1, g1p, 1) ∧
      Label.new true g2 tid (.borrowed s) = .ok (l2, g2p, 1) ∧
      Label.beq l1 l2 = true ∧ l1.id = l2.id ∧ l1.name = l2.name := by
  refine ⟨⟨fnv1a_hash_str_64 s, s⟩, g1, ⟨fnv1a_hash_str_64 s, s⟩, g2, rfl,
    labelNew_check_ok g2 tid (.borrowed s), ?_, rfl, rfl⟩
  simp [Label.beq]

/-- C6 counterexample: with the check_label_hashes feature off, Label::new
on an owned string still performs an intern call (the call in the
Cow::Owned branch is not behind the cfg guard), contradicting the claim
that no construction path touches the registry. -/
theorem feature_off_owned_still_interns :
    internCalls (Label.new false [] 0 (.owned [97])) = 1 :=
  rfl

/-- C6 amended: with the feature off, ConstLabel-to-Label conversion and
Label::new on a borrowed string perform no registry operation and leave the
global state unchanged, but Label::new on an owned string still performs
one intern call. -/
theorem feature_off_intern_counts (g : RegMap) (tid : Nat) (s : Str) :
    Label.fromConst false g tid (ConstLabel.new s) = .ok (⟨fnv1a_hash_str_64 s, s⟩, g, 0) ∧
    Label.new false g tid (.borrowed s) = .ok (⟨fnv1a_hash_str_64 s, s⟩, g, 0) ∧
    internCalls (Label.new false g tid (.owned s)) = 1 :=
  ⟨rfl, rfl, rfl⟩

/-- C7: refuted on the code as written.  Two owned constructions of the
string "1": under the const-HASHES semantics the first call's entry does
not persist (the global map stays empty) and the second call returns its
own freshly leaked allocation (1, "1") rather than the originally stored
(0, "1"); under the persistent-registry semantics the spec describes, the
second call returns the original stored allocation and leaves the registry
unchanged. -/
theorem intern_not_idempotent_across_calls :
    labelNewOwnedA [] 0 0 [49] = .ok ((0, [49]), [], 1) ∧
    labelNewOwnedA [] 1 0 [49] = .ok ((1, [49]), [], 2) ∧
    ((1, [49]) : AllocStr) ≠ (0, [49]) ∧
    labelNewOwnedStaticA [] 0 0 [49] =
      .ok ((0, [49]), [((0, fnv1a_hash_str_64 [49]), (0, [49]))], 1) ∧
    labelNewOwnedStaticA [((0, fnv1a_hash_str_64 [49]), (0, [49]))] 1 0 [49] =
      .ok ((0, [49]), [((0, fnv1a_hash_str_64 [49]), (0, [49]))], 2) :=
  ⟨rfl, rfl, by decide, rfl, rfl⟩

/-- C8: confirmed.  ConstLabel::new is a const fn (so the embedding is a
pure function with no access to the registry state); its id field is the
FNV-1a hash of the name and its name field is the given string; the id also
equals the byte-by-byte reference recursion. -/
theorem const_label_new_value (s : Str) :
    (ConstLabel.new s).id = fnv1a_hash_str_64 s ∧ (ConstLabel.new s).name = s ∧
    (ConstLabel.new s).id = fnv1a_loop 0xcbf29ce484222325 s :=
  ⟨rfl, rfl, fnv_eq_loop s⟩

/-- C9: confirmed.  Clone copies the id and name fields verbatim (the
embedding of the Clone impl takes no registry state, mirroring that the
source never touches the registry or recomputes the hash), and the clone is
equal to the original. -/
theorem label_clone_identical (l : Label) :
    Label.clone l = l ∧ (Label.clone l).id = l.id ∧ (Label.clone l).name = l.name ∧
    Label.beq (Label.clone l) l = true := by
  refine ⟨rfl, rfl, rfl, ?_⟩
  simp [Label.beq, Label.clone]

/-- C10: confirmed (the hash crate is modelled from its documented
algorithm).  The foldl hash used by the label constructors equals 64-bit
FNV-1a written as the byte-by-byte reference recursion from the offset
basis 0xcbf29ce484222325 with prime 0x100000001b3 mod 2 ^ 64, ConstLabel's
id is that function of its name, and every label built by Label::new has
id equal to that function of its name. -/
theorem hash_is_fnv1a_64 :
    (∀ s : Str, fnv1a_hash_str_64 s = fnv1a_loop 0xcbf29ce484222325 s) ∧
    (∀ s : Str, (ConstLabel.new s).id = fnv1a_loop 0xcbf29ce484222325 (ConstLabel.new s).name) ∧
    ∀ (g : RegMap) (tid : Nat) (c : CowStr), ∃ l gp,
      Label.new true g tid c = .ok (l, gp, 1) ∧
      l.id = fnv1a_loop 0xcbf29ce484222325 l.name :=
  ⟨fnv_eq_loop, fun s => fnv_eq_loop s,
    fun g tid c => ⟨⟨fnv1a_hash_str_64 c.asRef, c.asRef⟩, g,
      labelNew_check_ok g tid c, fnv_eq_loop c.asRef⟩⟩
